import Mathlib

/-!
Verification development for the tweet-activity repository.

The embedding models the two source files:
  * `scraper.py` — `analyze_scraped_data` (the activity aggregator) together
    with the timestamp parsing it performs per entry
    (`datetime.fromisoformat` after replacing a trailing `"Z"` by `"+00:00"`);
  * `main.py` — `generate_demo_data`, `fetch_via_scraper` and the
    `/api/analyze/{username}` handler `analyze_user`.

Machine-level conventions of the embedding:
  * Python `dict`/`defaultdict` objects are modelled as insertion-ordered
    association lists (`List (Nat × Nat)` resp. `List (String × Nat)`),
    because `sorted(d.items(), ...)` in the source iterates the dict in
    insertion order and that order is observable in the peak lists.
  * `datetime` objects are modelled by `PyDateTime`; the constructor
    invariants of Python's `datetime` (hour in 0..23, minute/second in 0..59)
    are carried in the types via `Fin`.  `tzinfo` is `offset : Option Int`
    (minutes east of UTC), `none` meaning a naive datetime.
  * `datetime.fromisoformat` is modelled by `parseISO` on the subset of
    ISO-8601 forms the scraper can feed it:
    `YYYY-MM-DD[<sep>HH[:MM[:SS[.{1..6 digits}]]][±HH:MM]]`.
    Randomness (`random.randint`, `random.choices`) is modelled by
    universally quantified draw lists constrained by the documented ranges.
-/

set_option maxRecDepth 10000

namespace TweetActivity

/-- Model of a Python `datetime` value: the constructor of `datetime`
guarantees `0 ≤ hour ≤ 23`, `0 ≤ minute, second ≤ 59`, which the `Fin`
types carry.  `offset` is the tz offset in minutes east of UTC
(`none` = naive datetime). -/
structure PyDateTime where
  year : Int
  month : Nat
  day : Nat
  hour : Fin 24
  minute : Fin 60
  second : Fin 60
  micro : Nat
  offset : Option Int
deriving DecidableEq, Repr

/-- Numeric value of a decimal digit character, `none` for non-digits. -/
def digit? (c : Char) : Option Nat :=
  if c.isDigit then some (c.toNat - 48) else none

/-- Read exactly two decimal digits. -/
def parse2 : List Char → Option (Nat × List Char)
  | c1 :: c2 :: rest => do
    let d1 ← digit? c1
    let d2 ← digit? c2
    pure (d1 * 10 + d2, rest)
  | _ => none

/-- Read exactly four decimal digits. -/
def parse4 : List Char → Option (Nat × List Char)
  | c1 :: c2 :: c3 :: c4 :: rest => do
    let d1 ← digit? c1
    let d2 ← digit? c2
    let d3 ← digit? c3
    let d4 ← digit? c4
    pure (((d1 * 10 + d2) * 10 + d3) * 10 + d4, rest)
  | _ => none

/-- Consume an expected literal character. -/
def expectChar (c : Char) : List Char → Option (List Char)
  | [] => none
  | x :: rest => if x = c then some rest else none

/-- Leading run of decimal digits together with the remaining input. -/
def digitRun : List Char → List Nat × List Char
  | [] => ([], [])
  | c :: cs =>
    match digit? c with
    | some d => let (ds, rest) := digitRun cs; (d :: ds, rest)
    | none => ([], c :: cs)

/-- Value of a digit list read as a decimal numeral. -/
def digitsVal (ds : List Nat) : Nat := ds.foldl (fun a d => a * 10 + d) 0

/-- Whether year `y` is a Gregorian leap year (Python `calendar.isleap`). -/
def isLeap (y : Int) : Bool :=
  y % 4 = 0 && (y % 100 ≠ 0 || y % 400 = 0)

/-- Number of days in month `m` of year `y` (months 1..12). -/
def daysInMonth (y : Int) (m : Nat) : Nat :=
  match m with
  | 1 => 31 | 2 => if isLeap y then 29 else 28 | 3 => 31
  | 4 => 30 | 5 => 31 | 6 => 30 | 7 => 31 | 8 => 31
  | 9 => 30 | 10 => 31 | 11 => 30 | 12 => 31
  | _ => 0

/-- Days from 1970-01-01 to the civil date `y-m-d` (days_from_civil
algorithm over the proleptic Gregorian calendar, as used by Python's
`datetime.toordinal` up to the epoch shift). -/
def daysFromCivil (y : Int) (m d : Nat) : Int :=
  let y1 : Int := if m ≤ 2 then y - 1 else y
  let era : Int := (if 0 ≤ y1 then y1 else y1 - 399) / 400
  let yoe : Int := y1 - era * 400
  let mp : Int := (Int.ofNat m + 9) % 12
  let doy : Int := (153 * mp + 2) / 5 + Int.ofNat d - 1
  let doe : Int := yoe * 365 + yoe / 4 - yoe / 100 + doy
  era * 146097 + doe - 719468

/-- Python `datetime.weekday()`: Monday = 0 … Sunday = 6.
1970-01-01 was a Thursday (weekday 3). -/
def pyWeekday (y : Int) (m d : Nat) : Nat :=
  ((daysFromCivil y m d + 3) % 7).toNat

/-- Parse the optional UTC-offset tail `±HH:MM` (Python `timezone` requires
the offset to be strictly less than 24 hours, hence `hh ≤ 23`). -/
def parseOffset : List Char → Option (Option Int × List Char)
  | [] => some (none, [])
  | c :: rest =>
    if c = '+' ∨ c = '-' then do
      let (hh, rest1) ← parse2 rest
      let rest2 ← expectChar ':' rest1
      let (mm, rest3) ← parse2 rest2
      if hh ≤ 23 ∧ mm ≤ 59 then
        let mins : Int := Int.ofNat (hh * 60 + mm)
        pure (some (if c = '-' then -mins else mins), rest3)
      else none
    else some (none, c :: rest)

/-- Parse the time-of-day part `HH[:MM[:SS[.{1..6 digits}]]]` followed by an
optional offset; the whole remaining input must be consumed. -/
def parseTimePart (cs : List Char) :
    Option (Fin 24 × Fin 60 × Fin 60 × Nat × Option Int) := do
  let (h, rest1) ← parse2 cs
  if hh : h ≤ 23 then
    let cont : Fin 60 → Fin 60 → Nat → List Char →
        Option (Fin 24 × Fin 60 × Fin 60 × Nat × Option Int) :=
      fun mi se micro tail => do
        let (off, tail1) ← parseOffset tail
        match tail1 with
        | [] => pure (⟨h, by omega⟩, mi, se, micro, off)
        | _ => none
    match rest1 with
    | ':' :: rest2 => do
      let (mi, rest3) ← parse2 rest2
      if hmi : mi ≤ 59 then
        match rest3 with
        | ':' :: rest4 => do
          let (se, rest5) ← parse2 rest4
          if hse : se ≤ 59 then
            match rest5 with
            | '.' :: rest6 =>
              let (ds, rest7) := digitRun rest6
              if 1 ≤ ds.length ∧ ds.length ≤ 6 then
                cont ⟨mi, by omega⟩ ⟨se, by omega⟩
                  (digitsVal ds * 10 ^ (6 - ds.length)) rest7
              else none
            | _ => cont ⟨mi, by omega⟩ ⟨se, by omega⟩ 0 rest5
          else none
        | _ => cont ⟨mi, by omega⟩ 0 0 rest3
      else none
    | _ => cont 0 0 0 rest1
  else none

/-- Model of `datetime.fromisoformat` on the forms reachable from the
scraper: `YYYY-MM-DD[<any separator char>HH[:MM[:SS[.frac]]][±HH:MM]]`.
Date and time fields are range-validated exactly as `datetime` validates
its constructor arguments. -/
def parseISO (s : String) : Option PyDateTime := do
  let cs := s.data
  let (y, r1) ← parse4 cs
  let r2 ← expectChar '-' r1
  let (mo, r3) ← parse2 r2
  let r4 ← expectChar '-' r3
  let (d, r5) ← parse2 r4
  if 1 ≤ y ∧ 1 ≤ mo ∧ mo ≤ 12 ∧ 1 ≤ d ∧ d ≤ daysInMonth (Int.ofNat y) mo then
    match r5 with
    | [] => pure ⟨Int.ofNat y, mo, d, 0, 0, 0, 0, none⟩
    | _sep :: rest => do
      let (h, mi, se, micro, off) ← parseTimePart rest
      pure ⟨Int.ofNat y, mo, d, h, mi, se, micro, off⟩
  else none

/-- Replace every occurrence of the character `Z` by `+00:00`
(Python `str.replace("Z", "+00:00")` replaces all occurrences). -/
def replaceZ : List Char → List Char
  | [] => []
  | c :: rest =>
    if c = 'Z' then '+' :: '0' :: '0' :: ':' :: '0' :: '0' :: replaceZ rest
    else c :: replaceZ rest

/-- Per-entry timestamp parse done by `analyze_scraped_data`:
`dt_str.replace("Z", "+00:00")` when the string ends with `"Z"`, then
`datetime.fromisoformat`. -/
def pyFromIso (s : String) : Option PyDateTime :=
  if s.data.getLast? = some 'Z' then parseISO ⟨replaceZ s.data⟩
  else parseISO s

/-- Python `str(n)` on a bucket index, the dict key used by the source. -/
def strKey (n : Nat) : String := toString n

/-- Increment key `k` in an insertion-ordered `defaultdict(int)`: the first
entry with key `k` is incremented; a missing key is appended with value 1. -/
def bump : List (Nat × Nat) → Nat → List (Nat × Nat)
  | [], k => [(k, 1)]
  | (a, c) :: rest, k =>
    if a = k then (a, c + 1) :: rest else (a, c) :: bump rest k

/-- Reading `d[k]` on a `defaultdict(int)` inserts a missing key with value
0 at the end of the dict (this happens inside the comprehensions
`{str(h): hourly[h] for h in range(24)}` in the source). -/
def touch (l : List (Nat × Nat)) (k : Nat) : List (Nat × Nat) :=
  if l.any (fun p => p.1 = k) then l else l ++ [(k, 0)]

/-- Effect of `{str(h): d[h] for h in range(n)}` on the backing
`defaultdict`: every key in `0..n-1` is touched in order. -/
def fillKeys (l : List (Nat × Nat)) (n : Nat) : List (Nat × Nat) :=
  (List.range n).foldl touch l

/-- Increment position `i` of a row (out-of-range indices never occur in
any run: hour < 24 and weekday < 7 are enforced by the datetime model). -/
def incAt : List Nat → Nat → List Nat
  | [], _ => []
  | x :: xs, 0 => (x + 1) :: xs
  | x :: xs, n + 1 => x :: incAt xs n

/-- `heatmap[day][hour] += 1`. -/
def incCell : List (List Nat) → Nat → Nat → List (List Nat)
  | [], _, _ => []
  | r :: rs, 0, hour => incAt r hour :: rs
  | r :: rs, n + 1, hour => r :: incCell rs n hour

/-- Stable insertion used to model Python's stable `sorted(..., key=count,
reverse=True)`: an element is placed after all entries with a strictly
larger count and after earlier entries with an equal count.  Any stable
sort produces the same output, so this equals the source's Timsort. -/
def insertDesc (x : Nat × Nat) : List (Nat × Nat) → List (Nat × Nat)
  | [] => [x]
  | y :: ys => if x.2 < y.2 then y :: insertDesc x ys else x :: y :: ys

/-- Stable sort of (bucket, count) pairs by count descending; ties keep
the input (dict-iteration) order. -/
def sortByCountDesc (l : List (Nat × Nat)) : List (Nat × Nat) :=
  l.foldr insertDesc []

/-- Shared counting state: the two `defaultdict(int)`s and the 7×24
heatmap of `analyze_scraped_data` / `generate_demo_data`. -/
structure Ctrs where
  hourly : List (Nat × Nat)
  daily : List (Nat × Nat)
  heatmap : List (List Nat)
deriving DecidableEq, Repr

/-- Zero-initialised counters:
`heatmap = [[0 for _ in range(24)] for _ in range(7)]`. -/
def initCtrs : Ctrs :=
  ⟨[], [], List.replicate 7 (List.replicate 24 0)⟩

/-- One counting step on an (hour, weekday) pair — the loop body
`hourly[hour] += 1; daily[day] += 1; heatmap[day][hour] += 1` shared
verbatim by the aggregator and the demo generator. -/
def tallyOne (c : Ctrs) (p : Nat × Nat) : Ctrs :=
  ⟨bump c.hourly p.1, bump c.daily p.2, incCell c.heatmap p.2 p.1⟩

/-- The (hour, weekday) pair extracted from one timestamp string, `none`
when `datetime.fromisoformat` raises. -/
def parsePair (s : String) : Option (Nat × Nat) :=
  (pyFromIso s).map fun dt => (dt.hour.val, pyWeekday dt.year dt.month dt.day)

/-- Loop body of the aggregation loop in `analyze_scraped_data`: a parse
failure is swallowed by `except: continue`, a parsed entry is tallied. -/
def step (c : Ctrs) (s : String) : Ctrs :=
  match parsePair s with
  | none => c
  | some p => tallyOne c p

/-- Counters after the aggregation loop of `analyze_scraped_data`. -/
def runCtrs (tweets : List String) : Ctrs :=
  tweets.foldl step initCtrs

/-- The hourly defaultdict after the `{str(h): hourly[h] for h in range(24)}`
comprehension has touched all 24 keys. -/
def hourlyFull (tweets : List String) : List (Nat × Nat) :=
  fillKeys (runCtrs tweets).hourly 24

/-- The daily defaultdict after the `{str(d): daily[d] for d in range(7)}`
comprehension has touched all 7 keys. -/
def dailyFull (tweets : List String) : List (Nat × Nat) :=
  fillKeys (runCtrs tweets).daily 7

/-- Comparison key of a datetime in microseconds since the epoch; Python
compares aware datetimes by instant (naive ones by wall-clock fields,
which on valid dates induces the same order with `offset := none`). -/
def dtKey (dt : PyDateTime) : Int :=
  daysFromCivil dt.year dt.month dt.day * 86400000000
    + dt.hour.val * 3600000000 + dt.minute.val * 60000000
    + dt.second.val * 1000000 + dt.micro
    - dt.offset.getD 0 * 60000000

/-- The second parsing loop of `analyze_scraped_data` (the
`last_tweet_time` block): one `try` wraps the whole loop, so a single
parse failure aborts it and yields `None`. -/
def parseAll : List String → Option (List PyDateTime)
  | [] => some []
  | s :: ss =>
    match pyFromIso s with
    | none => none
    | some dt => (parseAll ss).map (dt :: ·)

/-- One comparison step of Python `max`: the current best is replaced only
by a strictly later instant, so the first maximal element wins. -/
def pickMax (acc y : PyDateTime) : PyDateTime :=
  if dtKey acc < dtKey y then y else acc

/-- Python `max` over a nonempty list of datetimes: keeps the first
maximal element.  Comparing a naive with an aware datetime raises
`TypeError`, which the surrounding `except: pass` turns into `None`. -/
def lastTweet (tweets : List String) : Option PyDateTime :=
  match parseAll tweets with
  | none => none
  | some [] => none
  | some (x :: xs) =>
    if (x :: xs).all (fun y => y.offset.isSome = x.offset.isSome) then
      some (xs.foldl pickMax x)
    else none

/-- The dict returned by `scrape_twitter_activity`, restricted to the
fields `analyze_scraped_data` and `fetch_via_scraper` read. -/
structure ScrapedData where
  success : Bool
  username : String
  displayName : String
  profileImage : String
  tweets : List String
  error : Option String
deriving DecidableEq, Repr

/-- The dict returned by `analyze_scraped_data` on success. -/
structure Analysis where
  username : String
  displayName : String
  profileImage : String
  totalTweetsAnalyzed : Nat
  hourlyActivity : List (String × Nat)
  dailyActivity : List (String × Nat)
  heatmapData : List (List Nat)
  peakHours : List (Nat × Nat)
  peakDays : List (Nat × Nat)
  timezoneNote : String
  lastTweetTime : Option PyDateTime
  isDemo : Bool
deriving DecidableEq, Repr

/-- Peak extraction of `analyze_scraped_data`:
`sorted(d.items(), key=count, reverse=True)[:3]` filtered to strictly
positive counts. -/
def codePeaks (l : List (Nat × Nat)) : List (Nat × Nat) :=
  ((sortByCountDesc l).take 3).filter fun p => 0 < p.2

/-- Model of `analyze_scraped_data` (scraper.py). -/
def analyze_scraped_data (d : ScrapedData) : Option Analysis :=
  if d.success = false ∨ d.tweets = [] then none
  else
    some
      { username := d.username
        displayName := d.displayName
        profileImage := d.profileImage
        totalTweetsAnalyzed := d.tweets.length
        hourlyActivity := (hourlyFull d.tweets).map fun p => (strKey p.1, p.2)
        dailyActivity := (dailyFull d.tweets).map fun p => (strKey p.1, p.2)
        heatmapData := (runCtrs d.tweets).heatmap
        peakHours := codePeaks (hourlyFull d.tweets)
        peakDays := codePeaks (dailyFull d.tweets)
        timezoneNote := "Times shown in UTC (scraped)"
        lastTweetTime := lastTweet d.tweets
        isDemo := false }

/-- The `ActivityResponse` pydantic model of main.py. -/
structure ActivityResponse where
  username : String
  displayName : String
  profileImage : String
  totalTweetsAnalyzed : Nat
  hourlyActivity : List (String × Nat)
  dailyActivity : List (String × Nat)
  heatmapData : List (List Nat)
  peakHours : List (Nat × Nat)
  peakDays : List (Nat × Nat)
  timezoneNote : String
  isDemo : Bool
deriving DecidableEq, Repr

/-- Model of `generate_demo_data` (main.py).  The unseeded RNG is modelled
by the draw list: `random.randint(150, 300)` fixes `draws.length` in
`[150, 300]` and each `random.choices(range(24/7), weights)[0]` yields one
(hour, day) pair; those range constraints appear as theorem hypotheses.
The function touches no external source: it is a pure function of the
identifier and the draws. -/
def generate_demo_data (username : String) (draws : List (Nat × Nat)) :
    ActivityResponse :=
  let c := draws.foldl tallyOne initCtrs
  let hf := fillKeys c.hourly 24
  let df := fillKeys c.daily 7
  { username := username
    displayName := "@" ++ username
    profileImage := ""
    totalTweetsAnalyzed := draws.length
    hourlyActivity := hf.map fun p => (strKey p.1, p.2)
    dailyActivity := df.map fun p => (strKey p.1, p.2)
    heatmapData := c.heatmap
    peakHours := (sortByCountDesc hf).take 3
    peakDays := (sortByCountDesc df).take 3
    timezoneNote := "Times shown in UTC (demo mode)"
    isDemo := true }

/-- Whether `small` occurs at the start of `big`. -/
def startsL : List Char → List Char → Bool
  | [], _ => true
  | _ :: _, [] => false
  | a :: as, b :: bs => a = b && startsL as bs

/-- Whether `needle` occurs as a contiguous substring of `hay`
(Python's `in` operator on strings). -/
def containsL (needle : List Char) : List Char → Bool
  | [] => needle.isEmpty
  | c :: cs => startsL needle (c :: cs) || containsL needle cs

/-- Python `needle in hay` for strings. -/
def strContains (hay needle : String) : Bool :=
  containsL needle.data hay.data

/-- Python `str.lower` (ASCII case folding suffices for the messages the
scraper produces). -/
def lowerStr (s : String) : String :=
  ⟨s.data.map Char.toLower⟩

/-- Result of the `fetch_via_scraper` coroutine: either a response or a
raised `HTTPException(status_code, detail)`. -/
inductive FetchResult where
  | ok : ActivityResponse → FetchResult
  | httpError : Nat → String → FetchResult
deriving DecidableEq, Repr

/-- Whether a fetch produced a response rather than an error. -/
def FetchResult.isOk : FetchResult → Bool
  | .ok _ => true
  | .httpError _ _ => false

/-- Field-for-field copy performed by the `ActivityResponse(...)` call at
the end of `fetch_via_scraper` (`is_demo=False`; `last_tweet_time` and
`is_scraped` are dropped). -/
def toResponse (a : Analysis) : ActivityResponse :=
  { username := a.username
    displayName := a.displayName
    profileImage := a.profileImage
    totalTweetsAnalyzed := a.totalTweetsAnalyzed
    hourlyActivity := a.hourlyActivity
    dailyActivity := a.dailyActivity
    heatmapData := a.heatmapData
    peakHours := a.peakHours
    peakDays := a.peakDays
    timezoneNote := a.timezoneNote
    isDemo := false }

/-- HTTP status chosen by `fetch_via_scraper` for a failed scrape with
error message `msg`. -/
def statusFor (msg : String) : Nat :=
  if strContains (lowerStr msg) "not found" ∨
      strContains (lowerStr msg) "suspended" then 404
  else if strContains (lowerStr msg) "timed out" then 504
  else 500

/-- Model of `fetch_via_scraper` (main.py). -/
def fetch_via_scraper (username : String) (scraped : ScrapedData) :
    FetchResult :=
  if scraped.success = false then
    let msg := scraped.error.getD "Failed to scrape profile"
    .httpError (statusFor msg) msg
  else
    match analyze_scraped_data scraped with
    | none => .httpError 404 ("No tweets found for @" ++ username)
    | some a => .ok (toResponse a)

/-- Python `str.strip()`: drop leading and trailing whitespace. -/
def pyStrip (cs : List Char) : List Char :=
  ((cs.dropWhile Char.isWhitespace).reverse.dropWhile Char.isWhitespace).reverse

/-- Normalisation applied by `analyze_user`:
`username.strip().lstrip("@")`. -/
def cleanUsername (u : String) : String :=
  ⟨(pyStrip u.data).dropWhile (fun c => c = '@')⟩

/-- Which path the `/api/analyze/{username}` handler takes: a 400 error,
a call of `generate_demo_data`, or a call of the timestamp source
(`fetch_via_scraper`), each with the normalised username. -/
inductive AnalyzeOutcome where
  | badRequest : String → AnalyzeOutcome
  | demoCall : String → AnalyzeOutcome
  | scrapeCall : String → AnalyzeOutcome
deriving DecidableEq, Repr

/-- Model of the dispatch in `analyze_user` (main.py). -/
def analyze_user (username : String) (demo : Bool) : AnalyzeOutcome :=
  let u := cleanUsername username
  if u = "" then .badRequest "Username is required"
  else if demo then .demoCall u
  else .scrapeCall u

/-! ### Derived quantities the claims talk about -/

/-- Sum of the values of an association list (Python `sum(d.values())`). -/
def sumVals {α : Type} (l : List (α × Nat)) : Nat :=
  (l.map Prod.snd).sum

/-- Sum of all cells of a matrix (`sum(sum(row) for row in m)`). -/
def matSum (m : List (List Nat)) : Nat :=
  (m.map List.sum).sum

/-- The (hour, weekday) pairs of the entries that parse successfully. -/
def parsedPairs (tweets : List String) : List (Nat × Nat) :=
  tweets.filterMap parsePair

/-- Number of entries of the scrape that parse successfully. -/
def parsedCount (d : ScrapedData) : Nat :=
  (parsedPairs d.tweets).length

/-- Hours (0..23) of the successfully parsed entries, in input order. -/
def hoursOf (tweets : List String) : List Nat :=
  (parsedPairs tweets).map Prod.fst

/-- Weekdays (0..6) of the successfully parsed entries, in input order. -/
def daysOf (tweets : List String) : List Nat :=
  (parsedPairs tweets).map Prod.snd

/-! ### Definitions supporting the claim statements -/

/-- Shape of the heatmap: 7 rows of 24 cells, preserved by every tally. -/
def goodShape (m : List (List Nat)) : Prop :=
  m.length = 7 ∧ ∀ r ∈ m, r.length = 24

/-- Key order produced by inserting `k` into a dict with key order `acc`. -/
def addKey (acc : List Nat) (k : Nat) : List Nat :=
  if k ∈ acc then acc else acc ++ [k]

/-- Insertion order of the keys of a `defaultdict(int)` after incrementing
the keys `ks` in sequence: first occurrences, in input order. -/
def keyOrder (ks : List Nat) : List Nat :=
  ks.foldl addKey []

/-- A dict as a key order plus a count function. -/
def mkDict (ord : List Nat) (cnt : Nat → Nat) : List (Nat × Nat) :=
  ord.map fun k => (k, cnt k)

/-- Insertion order of the hourly dict at the moment it is sorted: hours in
order of first occurrence in the input, then the untouched hours ascending
(appended by the dict comprehension touching keys `0..23`). -/
def hourOrder (tweets : List String) : List Nat :=
  (List.range 24).foldl addKey (keyOrder (hoursOf tweets))

/-- Insertion order of the daily dict at the moment it is sorted. -/
def dayOrder (tweets : List String) : List Nat :=
  (List.range 7).foldl addKey (keyOrder (daysOf tweets))

/-- Modelled from the spec: total minutes since the epoch of the instant
denoted by a datetime, after normalising to UTC (naive values are taken
at face value, matching the spec's UTC-by-default reading). -/
def utcMinutes (dt : PyDateTime) : Int :=
  daysFromCivil dt.year dt.month dt.day * 1440 + dt.hour.val * 60
    + dt.minute.val - dt.offset.getD 0

/-- Modelled from the spec: the instant's hour-of-day in UTC. -/
def utcHour (dt : PyDateTime) : Nat :=
  ((utcMinutes dt % 1440) / 60).toNat

/-- Modelled from the spec: the instant's weekday in UTC
(Monday = 0 … Sunday = 6). -/
def utcWeekday (dt : PyDateTime) : Nat :=
  (((utcMinutes dt).fdiv 1440 + 3) % 7).toNat

/-- Modelled from the spec's peak rule: take the `n` (bucket, count) pairs
in bucket order `0..n-1`, sort them by count descending — stable, so tied
buckets stay in ascending bucket order — and keep the first 3 entries with
a strictly positive count. -/
def specPeaks (cnt : Nat → Nat) (n : Nat) : List (Nat × Nat) :=
  ((sortByCountDesc ((List.range n).map fun h => (h, cnt h))).take 3).filter
    fun p => 0 < p.2

/-- A scrape whose second entry does not parse: the bucket sums count 1
entry while `total_tweets_analyzed` reports the raw list length 2. -/
def oneBadScrape : ScrapedData :=
  ⟨true, "u", "@u", "", ["2024-01-01T09:00:00Z", "garbage"], none⟩

/-- Scrape with two parseable entries, used to witness C1. -/
def allGoodScrape : ScrapedData :=
  ⟨true, "u", "@u", "", ["2024-01-01T09:00:00Z", "2024-01-02T11:30:00Z"], none⟩

/-- Demo draw list of 150 identical (hour 9, Wednesday) pairs. -/
def demoDraws : List (Nat × Nat) := List.replicate 150 (9, 2)

/-- The mixed valid/invalid input named by the claim. -/
def mixedScrape : ScrapedData :=
  ⟨true, "u", "@u", "",
    ["2024-01-01T09:00:00Z", "garbage", "2024-01-01T09:30:00Z"], none⟩

/-- A successful scrape whose only timestamp string fails to parse. -/
def garbageScrape : ScrapedData :=
  ⟨true, "u", "@u", "", ["not-a-date"], none⟩

/-- Two entries at hours 10 and 9 (in that input order), both with count 1:
the claim's tie rule (ascending hour order) and the code's tie rule
(dict insertion order) disagree here. -/
def tieScrape : ScrapedData :=
  ⟨true, "u", "@u", "", ["2024-01-01T10:00:00Z", "2024-01-01T09:00:00Z"], none⟩

/-- A single timestamp with an explicit +05:00 offset. -/
def offsetScrape : ScrapedData :=
  ⟨true, "u", "@u", "", ["2024-01-01T09:00:00+05:00"], none⟩

/-- The UTC form of the same instant as `offsetScrape`'s entry. -/
def utcScrape : ScrapedData :=
  ⟨true, "u", "@u", "", ["2024-01-01T04:00:00Z"], none⟩

/-- Scrape with two parseable UTC entries, used to witness C6. -/
def lastScrape : ScrapedData :=
  ⟨true, "u", "@u", "", ["2024-01-01T09:00:00Z", "2024-01-02T11:30:00Z"], none⟩

/-- Scrape whose two entries both parse but mix an aware (Z-suffixed) and
a naive (date-only) datetime. -/
def mixedTzScrape : ScrapedData :=
  ⟨true, "u", "@u", "", ["2024-01-01T09:00:00Z", "2024-01-02"], none⟩

/-- A failed scrape classified "not found". -/
def notFoundScrape : ScrapedData :=
  ⟨false, "u", "@u", "", [], some "User @u not found or suspended"⟩

/-- A failed scrape classified "timed out". -/
def timeoutScrape : ScrapedData :=
  ⟨false, "u", "@u", "", [],
    some "Request timed out. Twitter may be slow or blocking requests."⟩

/-- A failed scrape with a generic error. -/
def errScrape : ScrapedData :=
  ⟨false, "u", "@u", "", [], some "Scraping error: boom"⟩

/-- A successful scrape with an empty tweet list. -/
def emptyScrape : ScrapedData := ⟨true, "u", "@u", "", [], none⟩

/-! ### Counting lemmas -/

theorem sumVals_bump (l : List (Nat × Nat)) (k : Nat) :
    sumVals (bump l k) = sumVals l + 1 := by
  induction l with
  | nil => simp [bump, sumVals]
  | cons p rest ih =>
    obtain ⟨a, c⟩ := p
    by_cases h : a = k <;> simp [bump, h, sumVals] at ih ⊢ <;> omega

theorem sumVals_touch (l : List (Nat × Nat)) (k : Nat) :
    sumVals (touch l k) = sumVals l := by
  unfold touch
  split <;> simp [sumVals]

theorem sumVals_foldl_touch (ks : List Nat) :
    ∀ l : List (Nat × Nat), sumVals (ks.foldl touch l) = sumVals l := by
  induction ks with
  | nil => intro l; rfl
  | cons k ks ih => intro l; rw [List.foldl_cons, ih, sumVals_touch]

theorem sumVals_fillKeys (l : List (Nat × Nat)) (n : Nat) :
    sumVals (fillKeys l n) = sumVals l :=
  sumVals_foldl_touch (List.range n) l

theorem sumVals_map_str (l : List (Nat × Nat)) :
    sumVals (l.map fun p => (strKey p.1, p.2)) = sumVals l := by
  induction l with
  | nil => rfl
  | cons p rest ih => simp [sumVals] at ih ⊢; omega

theorem incAt_length (r : List Nat) (i : Nat) :
    (incAt r i).length = r.length := by
  induction r generalizing i with
  | nil => rfl
  | cons x xs ih =>
    cases i with
    | zero => rfl
    | succ n => simp [incAt, ih]

theorem incAt_sum (r : List Nat) (i : Nat) (h : i < r.length) :
    (incAt r i).sum = r.sum + 1 := by
  induction r generalizing i with
  | nil => simp at h
  | cons x xs ih =>
    cases i with
    | zero => simp [incAt]; omega
    | succ n =>
      simp [incAt, ih n (by simpa using h)]
      omega

theorem incCell_length (m : List (List Nat)) (day hour : Nat) :
    (incCell m day hour).length = m.length := by
  induction m generalizing day with
  | nil => rfl
  | cons r rs ih =>
    cases day with
    | zero => rfl
    | succ n => simp [incCell, ih]

theorem incCell_rows (m : List (List Nat)) (day hour : Nat) :
    ∀ r ∈ incCell m day hour, ∃ r' ∈ m, r.length = r'.length := by
  induction m generalizing day with
  | nil => intro r h; simp [incCell] at h
  | cons r0 rs ih =>
    cases day with
    | zero =>
      intro r h
      rcases List.mem_cons.mp h with h | h
      · exact ⟨r0, List.mem_cons_self .., by rw [h, incAt_length]⟩
      · exact ⟨r, List.mem_cons_of_mem _ h, rfl⟩
    | succ n =>
      intro r h
      rcases List.mem_cons.mp h with h | h
      · exact ⟨r0, List.mem_cons_self .., by rw [h]⟩
      · obtain ⟨r', hr', hlen⟩ := ih n r h
        exact ⟨r', List.mem_cons_of_mem _ hr', hlen⟩

theorem incCell_matSum (m : List (List Nat)) (day hour : Nat)
    (hday : day < m.length) (hall : ∀ r ∈ m, hour < r.length) :
    matSum (incCell m day hour) = matSum m + 1 := by
  induction m generalizing day with
  | nil => simp at hday
  | cons r rs ih =>
    cases day with
    | zero =>
      simp [incCell, matSum,
        incAt_sum r hour (hall r (List.mem_cons_self ..))]
      omega
    | succ n =>
      have := ih n (by simpa using hday)
        (fun r' hr' => hall r' (List.mem_cons_of_mem _ hr'))
      simp [incCell, matSum] at this ⊢
      omega

theorem step_none {c : Ctrs} {s : String} (h : parsePair s = none) :
    step c s = c := by
  unfold step; rw [h]

theorem step_some {c : Ctrs} {s : String} {p : Nat × Nat}
    (h : parsePair s = some p) : step c s = tallyOne c p := by
  unfold step; rw [h]

theorem foldl_step_eq_tally (tweets : List String) :
    ∀ c : Ctrs, tweets.foldl step c = (parsedPairs tweets).foldl tallyOne c := by
  induction tweets with
  | nil => intro c; rfl
  | cons s ss ih =>
    intro c
    simp only [parsedPairs] at ih ⊢
    simp only [List.foldl_cons, List.filterMap_cons]
    cases h : parsePair s with
    | none => rw [step_none h]; exact ih c
    | some p => rw [step_some h]; exact ih (tallyOne c p)

theorem pyWeekday_lt (y : Int) (m d : Nat) : pyWeekday y m d < 7 := by
  unfold pyWeekday
  have h1 : 0 ≤ (daysFromCivil y m d + 3) % 7 :=
    Int.emod_nonneg _ (by norm_num)
  have h2 : (daysFromCivil y m d + 3) % 7 < 7 :=
    Int.emod_lt_of_pos _ (by norm_num)
  omega

theorem parsePair_bounds (s : String) (p : Nat × Nat)
    (h : parsePair s = some p) : p.1 < 24 ∧ p.2 < 7 := by
  unfold parsePair at h
  cases hp : pyFromIso s with
  | none => rw [hp] at h; simp at h
  | some dt =>
    rw [hp, Option.map_some'] at h
    obtain rfl := Option.some.inj h
    exact ⟨dt.hour.isLt, pyWeekday_lt dt.year dt.month dt.day⟩

theorem goodShape_init : goodShape initCtrs.heatmap := by
  constructor
  · rfl
  · intro r hr
    simp [initCtrs] at hr
    simp [hr]

theorem tallyOne_invariant (c : Ctrs) (p : Nat × Nat)
    (hp : p.1 < 24 ∧ p.2 < 7) (hshape : goodShape c.heatmap) :
    sumVals (tallyOne c p).hourly = sumVals c.hourly + 1 ∧
    sumVals (tallyOne c p).daily = sumVals c.daily + 1 ∧
    matSum (tallyOne c p).heatmap = matSum c.heatmap + 1 ∧
    goodShape (tallyOne c p).heatmap := by
  obtain ⟨hlen, hrows⟩ := hshape
  refine ⟨sumVals_bump .., sumVals_bump .., ?_, ?_, ?_⟩
  · exact incCell_matSum _ _ _ (by omega)
      (fun r hr => by rw [hrows r hr]; exact hp.1)
  · simpa [tallyOne, incCell_length] using hlen
  · intro r hr
    obtain ⟨r', hr', hlen'⟩ := incCell_rows c.heatmap p.2 p.1 r hr
    rw [hlen', hrows r' hr']

theorem foldl_tally_sums (ps : List (Nat × Nat)) :
    ∀ c : Ctrs, (∀ p ∈ ps, p.1 < 24 ∧ p.2 < 7) → goodShape c.heatmap →
    sumVals (ps.foldl tallyOne c).hourly = sumVals c.hourly + ps.length ∧
    sumVals (ps.foldl tallyOne c).daily = sumVals c.daily + ps.length ∧
    matSum (ps.foldl tallyOne c).heatmap = matSum c.heatmap + ps.length ∧
    goodShape (ps.foldl tallyOne c).heatmap := by
  induction ps with
  | nil => intro c _ hs; simpa using hs
  | cons p ps ih =>
    intro c hb hs
    have h1 := tallyOne_invariant c p (hb p (List.mem_cons_self ..)) hs
    have h2 := ih (tallyOne c p)
      (fun q hq => hb q (List.mem_cons_of_mem _ hq)) h1.2.2.2
    simp only [List.foldl_cons, List.length_cons]
    refine ⟨?_, ?_, ?_, h2.2.2.2⟩
    · rw [h2.1, h1.1]; omega
    · rw [h2.2.1, h1.2.1]; omega
    · rw [h2.2.2.1, h1.2.2.1]; omega

theorem parsedPairs_bounds (tweets : List String) :
    ∀ p ∈ parsedPairs tweets, p.1 < 24 ∧ p.2 < 7 := by
  intro p hp
  unfold parsedPairs at hp
  obtain ⟨s, _, hs⟩ := List.mem_filterMap.mp hp
  exact parsePair_bounds s p hs

/-! ### Insertion order of the defaultdicts

A Python dict iterates its entries in insertion order, and
`sorted(hourly.items(), ...)` in the source observes that order for tied
counts.  The lemmas below characterise the dict built by the aggregation
loop as an explicit key order plus a count function. -/

theorem mem_addKey {acc : List Nat} {k j : Nat} :
    j ∈ addKey acc k ↔ j ∈ acc ∨ j = k := by
  unfold addKey
  split
  · rename_i hk
    constructor
    · exact .inl
    · rintro (h | rfl)
      · exact h
      · exact hk
  · simp

theorem nodup_addKey (acc : List Nat) (k : Nat) (h : acc.Nodup) :
    (addKey acc k).Nodup := by
  unfold addKey
  split
  · exact h
  · rename_i hk
    simpa [List.nodup_append, h] using hk

theorem addKey_cons {a k : Nat} {ord : List Nat} (h : a ≠ k) :
    addKey (a :: ord) k = a :: addKey ord k := by
  unfold addKey
  by_cases hm : k ∈ ord
  · simp [hm, List.mem_cons]
  · have hka : ¬k = a := fun e => h e.symm
    have : k ∉ a :: ord := by simp [List.mem_cons, hm, hka]
    simp [this, hm]

theorem mem_foldl_addKey (ks : List Nat) :
    ∀ (acc : List Nat) (j : Nat),
      j ∈ ks.foldl addKey acc ↔ j ∈ acc ∨ j ∈ ks := by
  induction ks with
  | nil => intro acc j; simp
  | cons k ks ih =>
    intro acc j
    rw [List.foldl_cons, ih, mem_addKey]
    simp [List.mem_cons]
    tauto

theorem nodup_foldl_addKey (ks : List Nat) :
    ∀ acc : List Nat, acc.Nodup → (ks.foldl addKey acc).Nodup := by
  induction ks with
  | nil => intro acc h; exact h
  | cons k ks ih => intro acc h; exact ih _ (nodup_addKey acc k h)

theorem mem_keyOrder {ks : List Nat} {j : Nat} :
    j ∈ keyOrder ks ↔ j ∈ ks := by
  unfold keyOrder
  rw [mem_foldl_addKey]
  simp

theorem nodup_keyOrder (ks : List Nat) : (keyOrder ks).Nodup :=
  nodup_foldl_addKey ks [] List.nodup_nil

theorem bump_mkDict (ord : List Nat) (cnt : Nat → Nat) (k : Nat)
    (hnd : ord.Nodup) (h0 : k ∉ ord → cnt k = 0) :
    bump (mkDict ord cnt) k =
      mkDict (addKey ord k) (fun j => if j = k then cnt k + 1 else cnt j) := by
  induction ord with
  | nil =>
    simp only [mkDict, List.map_nil, bump, addKey, List.not_mem_nil,
      if_false, List.nil_append, List.map_cons]
    simp [h0 (by simp)]
  | cons a ord ih =>
    by_cases hak : a = k
    · subst hak
      have hnotin : a ∉ ord := (List.nodup_cons.mp hnd).1
      simp only [mkDict, List.map_cons, bump, if_pos rfl]
      unfold addKey
      simp only [List.mem_cons, true_or, if_true, mkDict, List.map_cons,
        if_pos rfl]
      congr 1
      apply List.map_congr_left
      intro j hj
      have : j ≠ a := fun e => hnotin (e ▸ hj)
      simp [this]
    · have hnd' : ord.Nodup := (List.nodup_cons.mp hnd).2
      have h0' : k ∉ ord → cnt k = 0 := by
        intro hk
        apply h0
        simp only [List.mem_cons]
        push_neg
        exact ⟨fun e => hak e.symm, hk⟩
      have heq := ih hnd' h0'
      simp only [mkDict, List.map_cons, bump, if_neg hak]
      rw [addKey_cons hak]
      simp only [mkDict, List.map_cons] at heq ⊢
      rw [heq]
      simp [fun e => hak (e : a = k)]

theorem foldl_bump_mkDict (ks : List Nat) :
    ∀ (ord : List Nat) (cnt : Nat → Nat), ord.Nodup →
      (∀ j, j ∉ ord → cnt j = 0) →
      ks.foldl bump (mkDict ord cnt) =
        mkDict (ks.foldl addKey ord) (fun j => cnt j + ks.count j) := by
  induction ks with
  | nil =>
    intro ord cnt _ _
    simp [mkDict]
  | cons k ks ih =>
    intro ord cnt hnd h0
    rw [List.foldl_cons, bump_mkDict ord cnt k hnd (h0 k), List.foldl_cons]
    have hnd' := nodup_addKey ord k hnd
    have h0' : ∀ j, j ∉ addKey ord k →
        (if j = k then cnt k + 1 else cnt j) = 0 := by
      intro j hj
      rw [mem_addKey] at hj
      push_neg at hj
      simp only [if_neg hj.2]
      exact h0 j hj.1
    rw [ih _ _ hnd' h0']
    congr 1
    funext j
    by_cases hj : j = k
    · subst hj
      simp [List.count_cons]
      omega
    · have hjk : ¬k = j := fun e => hj e.symm
      simp [List.count_cons, hj, hjk]

theorem touch_mkDict (ord : List Nat) (cnt : Nat → Nat) (k : Nat)
    (h0 : k ∉ ord → cnt k = 0) :
    touch (mkDict ord cnt) k = mkDict (addKey ord k) cnt := by
  unfold touch addKey
  by_cases hk : k ∈ ord
  · have : (mkDict ord cnt).any (fun p => p.1 = k) = true := by
      simp only [List.any_eq_true, mkDict, List.mem_map]
      exact ⟨(k, cnt k), ⟨k, hk, rfl⟩, by simp⟩
    simp [this, hk]
  · have : (mkDict ord cnt).any (fun p => p.1 = k) = false := by
      simp only [List.any_eq_false, mkDict, List.mem_map]
      rintro p ⟨j, hj, rfl⟩
      simp only [decide_eq_true_eq]
      exact fun e => hk (e ▸ hj)
    simp [this, hk, mkDict, h0 hk]

theorem foldl_touch_mkDict (ks : List Nat) :
    ∀ (ord : List Nat) (cnt : Nat → Nat), (∀ j, j ∉ ord → cnt j = 0) →
      ks.foldl touch (mkDict ord cnt) = mkDict (ks.foldl addKey ord) cnt := by
  induction ks with
  | nil => intro ord cnt _; rfl
  | cons k ks ih =>
    intro ord cnt h0
    rw [List.foldl_cons, touch_mkDict ord cnt k (h0 k), List.foldl_cons]
    apply ih
    intro j hj
    rw [mem_addKey] at hj
    push_neg at hj
    exact h0 j hj.1

theorem foldl_tally_hourly (ps : List (Nat × Nat)) :
    ∀ c : Ctrs,
      (ps.foldl tallyOne c).hourly = (ps.map Prod.fst).foldl bump c.hourly := by
  induction ps with
  | nil => intro c; rfl
  | cons p ps ih => intro c; simp [List.foldl_cons, ih, tallyOne]

theorem foldl_tally_daily (ps : List (Nat × Nat)) :
    ∀ c : Ctrs,
      (ps.foldl tallyOne c).daily = (ps.map Prod.snd).foldl bump c.daily := by
  induction ps with
  | nil => intro c; rfl
  | cons p ps ih => intro c; simp [List.foldl_cons, ih, tallyOne]

theorem runCtrs_hourly (tweets : List String) :
    (runCtrs tweets).hourly =
      mkDict (keyOrder (hoursOf tweets)) (fun j => (hoursOf tweets).count j) := by
  unfold runCtrs
  rw [foldl_step_eq_tally, foldl_tally_hourly]
  have hinit : initCtrs.hourly = mkDict [] (fun _ => 0) := rfl
  rw [hinit, foldl_bump_mkDict _ [] _ List.nodup_nil (by intro j _; rfl)]
  unfold keyOrder hoursOf
  congr 1
  funext j
  simp

theorem runCtrs_daily (tweets : List String) :
    (runCtrs tweets).daily =
      mkDict (keyOrder (daysOf tweets)) (fun j => (daysOf tweets).count j) := by
  unfold runCtrs
  rw [foldl_step_eq_tally, foldl_tally_daily]
  have hinit : initCtrs.daily = mkDict [] (fun _ => 0) := rfl
  rw [hinit, foldl_bump_mkDict _ [] _ List.nodup_nil (by intro j _; rfl)]
  unfold keyOrder daysOf
  congr 1
  funext j
  simp

theorem hourlyFull_eq (tweets : List String) :
    hourlyFull tweets =
      mkDict (hourOrder tweets) (fun j => (hoursOf tweets).count j) := by
  unfold hourlyFull fillKeys hourOrder
  rw [runCtrs_hourly]
  apply foldl_touch_mkDict
  intro j hj
  rw [mem_keyOrder] at hj
  exact List.count_eq_zero.mpr hj

theorem dailyFull_eq (tweets : List String) :
    dailyFull tweets =
      mkDict (dayOrder tweets) (fun j => (daysOf tweets).count j) := by
  unfold dailyFull fillKeys dayOrder
  rw [runCtrs_daily]
  apply foldl_touch_mkDict
  intro j hj
  rw [mem_keyOrder] at hj
  exact List.count_eq_zero.mpr hj

/-! ### Stable descending sort lemmas -/

theorem mem_insertDesc {x a : Nat × Nat} {l : List (Nat × Nat)} :
    a ∈ insertDesc x l ↔ a = x ∨ a ∈ l := by
  induction l with
  | nil => simp [insertDesc]
  | cons y ys ih =>
    unfold insertDesc
    split
    · simp only [List.mem_cons, ih]
      tauto
    · simp only [List.mem_cons]

theorem pairwise_insertDesc {x : Nat × Nat} {l : List (Nat × Nat)}
    (h : l.Pairwise fun a b => b.2 ≤ a.2) :
    (insertDesc x l).Pairwise fun a b => b.2 ≤ a.2 := by
  induction l with
  | nil => simp [insertDesc]
  | cons y ys ih =>
    rw [List.pairwise_cons] at h
    obtain ⟨hy, hys⟩ := h
    unfold insertDesc
    split
    · rename_i hlt
      rw [List.pairwise_cons]
      refine ⟨?_, ih hys⟩
      intro z hz
      rcases mem_insertDesc.mp hz with rfl | hz
      · omega
      · exact hy z hz
    · rename_i hge
      rw [List.pairwise_cons]
      refine ⟨?_, List.pairwise_cons.mpr ⟨hy, hys⟩⟩
      intro z hz
      rcases List.mem_cons.mp hz with rfl | hz
      · omega
      · have := hy z hz
        omega

theorem sortByCountDesc_pairwise (l : List (Nat × Nat)) :
    (sortByCountDesc l).Pairwise fun a b => b.2 ≤ a.2 := by
  unfold sortByCountDesc
  induction l with
  | nil => simp
  | cons x xs ih => exact pairwise_insertDesc ih

/-! ### Python `max` lemmas -/

theorem foldl_pickMax_mem (xs : List PyDateTime) :
    ∀ x : PyDateTime, xs.foldl pickMax x ∈ x :: xs := by
  induction xs with
  | nil => intro x; simp
  | cons y ys ih =>
    intro x
    rw [List.foldl_cons]
    have := ih (pickMax x y)
    rcases List.mem_cons.mp this with h | h
    · rw [h]
      unfold pickMax
      split <;> simp
    · simp [List.mem_cons, List.mem_cons_of_mem, h]

theorem foldl_pickMax_ge (xs : List PyDateTime) :
    ∀ x : PyDateTime, ∀ y ∈ x :: xs, dtKey y ≤ dtKey (xs.foldl pickMax x) := by
  induction xs with
  | nil =>
    intro x y hy
    simp only [List.foldl_nil]
    have hyx : y = x := by simpa using hy
    simp [hyx]
  | cons z zs ih =>
    intro x y hy
    rw [List.foldl_cons]
    have hx : dtKey x ≤ dtKey (pickMax x z) := by
      unfold pickMax; split <;> omega
    have hz : dtKey z ≤ dtKey (pickMax x z) := by
      unfold pickMax; split <;> omega
    have hhead := ih (pickMax x z) (pickMax x z) (List.mem_cons_self ..)
    rcases List.mem_cons.mp hy with rfl | hy'
    · omega
    · rcases List.mem_cons.mp hy' with rfl | hy''
      · omega
      · exact ih (pickMax x z) y (List.mem_cons_of_mem _ hy'')

theorem parseAll_of_forall (ts : List String)
    (h : ∀ s ∈ ts, (pyFromIso s).isSome) :
    parseAll ts = some (ts.filterMap pyFromIso) := by
  induction ts with
  | nil => rfl
  | cons s ss ih =>
    obtain ⟨dt, hdt⟩ := Option.isSome_iff_exists.mp (h s (List.mem_cons_self ..))
    unfold parseAll
    rw [hdt, ih (fun t ht => h t (List.mem_cons_of_mem _ ht))]
    simp [List.filterMap_cons, hdt]

/-! ### Assembled facts about a successful analysis -/

theorem analyze_some (d : ScrapedData) (hs : d.success = true)
    (hne : d.tweets ≠ []) :
    analyze_scraped_data d = some
      { username := d.username
        displayName := d.displayName
        profileImage := d.profileImage
        totalTweetsAnalyzed := d.tweets.length
        hourlyActivity := (hourlyFull d.tweets).map fun p => (strKey p.1, p.2)
        dailyActivity := (dailyFull d.tweets).map fun p => (strKey p.1, p.2)
        heatmapData := (runCtrs d.tweets).heatmap
        peakHours := codePeaks (hourlyFull d.tweets)
        peakDays := codePeaks (dailyFull d.tweets)
        timezoneNote := "Times shown in UTC (scraped)"
        lastTweetTime := lastTweet d.tweets
        isDemo := false } := by
  unfold analyze_scraped_data
  rw [if_neg]
  rintro (h | h)
  · rw [hs] at h
    exact absurd h (by simp)
  · exact hne h

theorem runCtrs_sums (tweets : List String) :
    sumVals (runCtrs tweets).hourly = (parsedPairs tweets).length ∧
    sumVals (runCtrs tweets).daily = (parsedPairs tweets).length ∧
    matSum (runCtrs tweets).heatmap = (parsedPairs tweets).length := by
  unfold runCtrs
  rw [foldl_step_eq_tally]
  have h := foldl_tally_sums (parsedPairs tweets) initCtrs
    (parsedPairs_bounds tweets) goodShape_init
  obtain ⟨h1, h2, h3, _⟩ := h
  have hh : sumVals initCtrs.hourly = 0 := rfl
  have hd : sumVals initCtrs.daily = 0 := rfl
  have hm : matSum initCtrs.heatmap = 0 := by decide
  exact ⟨by omega, by omega, by omega⟩

theorem demo_tally_sums (draws : List (Nat × Nat))
    (hdr : ∀ p ∈ draws, p.1 < 24 ∧ p.2 < 7) :
    sumVals (draws.foldl tallyOne initCtrs).hourly = draws.length ∧
    sumVals (draws.foldl tallyOne initCtrs).daily = draws.length ∧
    matSum (draws.foldl tallyOne initCtrs).heatmap = draws.length := by
  have h := foldl_tally_sums draws initCtrs hdr goodShape_init
  obtain ⟨h1, h2, h3, _⟩ := h
  have hh : sumVals initCtrs.hourly = 0 := rfl
  have hd : sumVals initCtrs.daily = 0 := rfl
  have hm : matSum initCtrs.heatmap = 0 := by decide
  exact ⟨by omega, by omega, by omega⟩

theorem mem_mkDict_map (ord : List Nat) (cnt : Nat → Nat) (h : Nat)
    (hh : h ∈ ord) :
    (strKey h, cnt h) ∈ (mkDict ord cnt).map fun p => (strKey p.1, p.2) :=
  List.mem_map.mpr ⟨(h, cnt h), List.mem_map.mpr ⟨h, hh, rfl⟩, rfl⟩

theorem mem_hourOrder (tweets : List String) (h : Nat) (hlt : h < 24) :
    h ∈ hourOrder tweets := by
  unfold hourOrder
  exact (mem_foldl_addKey _ _ _).mpr (.inr (List.mem_range.mpr hlt))

theorem mem_dayOrder (tweets : List String) (h : Nat) (hlt : h < 7) :
    h ∈ dayOrder tweets := by
  unfold dayOrder
  exact (mem_foldl_addKey _ _ _).mpr (.inr (List.mem_range.mpr hlt))

/-- Hourly dict of the demo generator, characterised the same way as the
aggregator's (it is built by the same `tallyOne`/`fillKeys` logic). -/
theorem demo_hourly_eq (draws : List (Nat × Nat)) :
    fillKeys (draws.foldl tallyOne initCtrs).hourly 24 =
      mkDict ((List.range 24).foldl addKey (keyOrder (draws.map Prod.fst)))
        (fun j => (draws.map Prod.fst).count j) := by
  rw [foldl_tally_hourly]
  have hinit : initCtrs.hourly = mkDict [] (fun _ => 0) := rfl
  rw [hinit, foldl_bump_mkDict _ [] _ List.nodup_nil (by intro j _; rfl)]
  have : (fun j => 0 + (draws.map Prod.fst).count j) =
      fun j => (draws.map Prod.fst).count j := by
    funext j; omega
  rw [this]
  unfold fillKeys keyOrder
  apply foldl_touch_mkDict
  intro j hj
  rw [mem_foldl_addKey] at hj
  push_neg at hj
  exact List.count_eq_zero.mpr hj.2

/-- Daily dict of the demo generator. -/
theorem demo_daily_eq (draws : List (Nat × Nat)) :
    fillKeys (draws.foldl tallyOne initCtrs).daily 7 =
      mkDict ((List.range 7).foldl addKey (keyOrder (draws.map Prod.snd)))
        (fun j => (draws.map Prod.snd).count j) := by
  rw [foldl_tally_daily]
  have hinit : initCtrs.daily = mkDict [] (fun _ => 0) := rfl
  rw [hinit, foldl_bump_mkDict _ [] _ List.nodup_nil (by intro j _; rfl)]
  have : (fun j => 0 + (draws.map Prod.snd).count j) =
      fun j => (draws.map Prod.snd).count j := by
    funext j; omega
  rw [this]
  unfold fillKeys keyOrder
  apply foldl_touch_mkDict
  intro j hj
  rw [mem_foldl_addKey] at hj
  push_neg at hj
  exact List.count_eq_zero.mpr hj.2

/-! ### Claim C1 -/

/-- Claim C1 as stated is false: for the non-empty input of `oneBadScrape`
(one parseable and one unparseable timestamp) the sum of the hourly-map
values (1) differs from the reported total count
(`total_tweets_analyzed = 2`), so the four quantities are not all equal. -/
theorem claim1_counterexample :
    (analyze_scraped_data oneBadScrape).map (fun a => sumVals a.hourlyActivity)
      ≠ (analyze_scraped_data oneBadScrape).map (·.totalTweetsAnalyzed) := by
  decide

/-- Claim C1, amended: in `analyze_scraped_data` the sums of the 24 hourly
values, the 7 daily values and the 7×24 heatmap cells are all equal to the
number of successfully parsed entries, while the reported total equals the
raw number of entries — the four agree exactly when every entry parses; in
`generate_demo_data` all four quantities equal the number of draws. -/
theorem claim1_amended (d : ScrapedData) (u : String)
    (draws : List (Nat × Nat)) (hs : d.success = true) (hne : d.tweets ≠ [])
    (hdr : ∀ p ∈ draws, p.1 < 24 ∧ p.2 < 7) :
    (analyze_scraped_data d).map (fun a => sumVals a.hourlyActivity)
        = some (parsedCount d) ∧
    (analyze_scraped_data d).map (fun a => sumVals a.dailyActivity)
        = some (parsedCount d) ∧
    (analyze_scraped_data d).map (fun a => matSum a.heatmapData)
        = some (parsedCount d) ∧
    (analyze_scraped_data d).map (·.totalTweetsAnalyzed)
        = some d.tweets.length ∧
    sumVals (generate_demo_data u draws).hourlyActivity = draws.length ∧
    sumVals (generate_demo_data u draws).dailyActivity = draws.length ∧
    matSum (generate_demo_data u draws).heatmapData = draws.length ∧
    (generate_demo_data u draws).totalTweetsAnalyzed = draws.length := by
  obtain ⟨hr1, hr2, hr3⟩ := runCtrs_sums d.tweets
  obtain ⟨hd1, hd2, hd3⟩ := demo_tally_sums draws hdr
  refine ⟨?_, ?_, ?_, ?_, ?_, ?_, ?_, ?_⟩
  · rw [analyze_some d hs hne]
    simp only [Option.map_some']
    unfold hourlyFull
    rw [sumVals_map_str, sumVals_fillKeys]
    exact congrArg some hr1
  · rw [analyze_some d hs hne]
    simp only [Option.map_some']
    unfold dailyFull
    rw [sumVals_map_str, sumVals_fillKeys]
    exact congrArg some hr2
  · rw [analyze_some d hs hne]
    simp only [Option.map_some']
    exact congrArg some hr3
  · rw [analyze_some d hs hne]
    simp only [Option.map_some']
  · simp only [generate_demo_data]
    rw [sumVals_map_str, sumVals_fillKeys]
    exact hd1
  · simp only [generate_demo_data]
    rw [sumVals_map_str, sumVals_fillKeys]
    exact hd2
  · simp only [generate_demo_data]
    exact hd3
  · simp only [generate_demo_data]

/-- Witness for C1 at `allGoodScrape` (both entries parse, so all four
quantities agree at 2) and at 150 demo draws. -/
theorem claim1_witness :
    allGoodScrape.success = true ∧ allGoodScrape.tweets ≠ [] ∧
    (∀ p ∈ demoDraws, p.1 < 24 ∧ p.2 < 7) ∧
    (analyze_scraped_data allGoodScrape).map (fun a => sumVals a.hourlyActivity)
      = some (parsedCount allGoodScrape) ∧
    (analyze_scraped_data allGoodScrape).map (·.totalTweetsAnalyzed)
      = some allGoodScrape.tweets.length ∧
    parsedCount allGoodScrape = allGoodScrape.tweets.length ∧
    sumVals (generate_demo_data "x" demoDraws).hourlyActivity
      = demoDraws.length := by
  have h := claim1_amended allGoodScrape "x" demoDraws rfl (by decide) (by decide)
  exact ⟨rfl, by decide, by decide, h.1, h.2.2.2.1, by decide, h.2.2.2.2.1⟩

/-! ### Claim C2 -/

/-- Claim C2 as stated is false: on the mixed input the reported total is
3 (the raw list length), not 2 — the unparseable entry is excluded from
the bucket counts but not from `total_tweets_analyzed`. -/
theorem claim2_counterexample :
    (analyze_scraped_data mixedScrape).map (·.totalTweetsAnalyzed)
      ≠ some 2 := by
  decide

/-- Claim C2, amended: on the mixed input the invalid entry is excluded
from every bucket count (hour 9 has count 2 and every other hourly bucket
0, exactly 2 entries parse) and valid entries are still processed, but the
reported total is 3, the raw entry count. -/
theorem claim2_amended :
    (analyze_scraped_data mixedScrape).map (·.totalTweetsAnalyzed)
        = some 3 ∧
    parsedCount mixedScrape = 2 ∧
    (analyze_scraped_data mixedScrape).map (·.hourlyActivity) = some
      [("9", 2), ("0", 0), ("1", 0), ("2", 0), ("3", 0), ("4", 0), ("5", 0),
       ("6", 0), ("7", 0), ("8", 0), ("10", 0), ("11", 0), ("12", 0),
       ("13", 0), ("14", 0), ("15", 0), ("16", 0), ("17", 0), ("18", 0),
       ("19", 0), ("20", 0), ("21", 0), ("22", 0), ("23", 0)] := by
  refine ⟨by decide, by decide, by decide⟩

/-! ### Claim C3 -/

/-- Claim C3 as stated is false: a non-empty input in which every
timestamp string fails to parse still yields a summary (not "no summary"):
`analyze_scraped_data` returns a value even though nothing parsed. -/
theorem claim3_counterexample :
    (analyze_scraped_data garbageScrape).isSome = true ∧
    pyFromIso "not-a-date" = none := by
  refine ⟨by decide, by decide⟩

/-- Claim C3, amended: `analyze_scraped_data` returns "no summary" exactly
when the source reported failure or the raw tweet list is empty; a
non-empty list of all-unparseable strings is not equivalent to the empty
case and produces a (zero-bucket) summary. -/
theorem claim3_amended (d : ScrapedData) :
    analyze_scraped_data d = none ↔ d.success = false ∨ d.tweets = [] := by
  unfold analyze_scraped_data
  split
  · rename_i h
    simp [h]
  · rename_i h
    simp [h]

/-! ### Claim C4 -/

/-- Claim C4 as stated is false: on `tieScrape` the code returns the peak
hours `[(10,1), (9,1)]` — tied counts stay in dict-insertion order, hour
10 first because it occurred first in the input — while the claim's rule
(ties kept in hour order 0..23) yields `[(9,1), (10,1)]`. -/
theorem claim4_counterexample :
    (analyze_scraped_data tieScrape).map (·.peakHours) = some [(10, 1), (9, 1)] ∧
    specPeaks (fun h => (hoursOf tieScrape.tweets).count h) 24
      = [(9, 1), (10, 1)] ∧
    (analyze_scraped_data tieScrape).map (·.peakHours)
      ≠ some (specPeaks (fun h => (hoursOf tieScrape.tweets).count h) 24) := by
  refine ⟨by decide, by decide, by decide⟩

/-- Shape facts shared by both peak lists: at most 3 entries, all counts
strictly positive, counts descending. -/
theorem codePeaks_shape (l : List (Nat × Nat)) :
    (codePeaks l).length ≤ 3 ∧ (∀ p ∈ codePeaks l, 0 < p.2) ∧
    (codePeaks l).Pairwise (fun p q => q.2 ≤ p.2) := by
  unfold codePeaks
  refine ⟨?_, ?_, ?_⟩
  · refine le_trans (List.length_filter_le _ _) ?_
    rw [List.length_take]
    exact Nat.min_le_left _ _
  · intro p hp
    have := (List.mem_filter.mp hp).2
    simpa using this
  · have hsub : List.Sublist
        (((sortByCountDesc l).take 3).filter (fun p => 0 < p.2))
        (sortByCountDesc l) :=
      (List.filter_sublist _).trans (List.take_sublist _ _)
    exact (sortByCountDesc_pairwise l).sublist hsub

/-- Claim C4, amended: the peak lists are the first 3 strictly-positive
entries of the stable count-descending sort of the 24 (resp. 7) bucket
pairs, but tied counts keep the dict's insertion order — buckets in order
of first occurrence in the input, followed by the untouched buckets in
ascending order (`hourOrder`/`dayOrder`) — not ascending bucket order
throughout.  Both lists have at most 3 entries, only strictly positive
counts, and are sorted by count descending (never padded). -/
theorem claim4_amended (d : ScrapedData) (hs : d.success = true)
    (hne : d.tweets ≠ []) :
    (analyze_scraped_data d).map (·.peakHours) = some
      (codePeaks (mkDict (hourOrder d.tweets)
        (fun h => (hoursOf d.tweets).count h))) ∧
    (analyze_scraped_data d).map (·.peakDays) = some
      (codePeaks (mkDict (dayOrder d.tweets)
        (fun h => (daysOf d.tweets).count h))) ∧
    (codePeaks (mkDict (hourOrder d.tweets)
        (fun h => (hoursOf d.tweets).count h))).length ≤ 3 ∧
    (codePeaks (mkDict (dayOrder d.tweets)
        (fun h => (daysOf d.tweets).count h))).length ≤ 3 ∧
    (∀ p ∈ codePeaks (mkDict (hourOrder d.tweets)
        (fun h => (hoursOf d.tweets).count h)), 0 < p.2) ∧
    (∀ p ∈ codePeaks (mkDict (dayOrder d.tweets)
        (fun h => (daysOf d.tweets).count h)), 0 < p.2) ∧
    (codePeaks (mkDict (hourOrder d.tweets)
        (fun h => (hoursOf d.tweets).count h))).Pairwise
      (fun p q => q.2 ≤ p.2) ∧
    (codePeaks (mkDict (dayOrder d.tweets)
        (fun h => (daysOf d.tweets).count h))).Pairwise
      (fun p q => q.2 ≤ p.2) := by
  obtain ⟨hl1, hp1, hw1⟩ := codePeaks_shape
    (mkDict (hourOrder d.tweets) (fun h => (hoursOf d.tweets).count h))
  obtain ⟨hl2, hp2, hw2⟩ := codePeaks_shape
    (mkDict (dayOrder d.tweets) (fun h => (daysOf d.tweets).count h))
  refine ⟨?_, ?_, hl1, hl2, hp1, hp2, hw1, hw2⟩
  · rw [analyze_some d hs hne]
    simp only [Option.map_some']
    rw [hourlyFull_eq]
  · rw [analyze_some d hs hne]
    simp only [Option.map_some']
    rw [dailyFull_eq]

/-- Witness for C4 at `tieScrape`: the peak-hour list agrees with the
amended rule and evaluates to `[(10,1), (9,1)]`. -/
theorem claim4_witness :
    tieScrape.success = true ∧ tieScrape.tweets ≠ [] ∧
    (analyze_scraped_data tieScrape).map (·.peakHours) = some
      (codePeaks (mkDict (hourOrder tieScrape.tweets)
        (fun h => (hoursOf tieScrape.tweets).count h))) ∧
    codePeaks (mkDict (hourOrder tieScrape.tweets)
      (fun h => (hoursOf tieScrape.tweets).count h)) = [(10, 1), (9, 1)] :=
  ⟨rfl, by decide, (claim4_amended tieScrape rfl (by decide)).1, by decide⟩

/-! ### Claim C5 -/

/-- Claim C5 is right about the intent but the code is wrong
(`datetime.fromisoformat` does not normalise to UTC and `dt.hour` /
`dt.weekday()` read the wall clock of the timestamp's own offset):
`2024-01-01T09:00:00+05:00` and `2024-01-01T04:00:00Z` denote the same
instant (equal `dtKey`s, UTC hour 4) yet the code buckets the former at
hour 9 and the latter at hour 4, while the code's own output annotates the
result "Times shown in UTC (scraped)"; likewise
`2024-01-01T02:00:00+05:00` falls on Sunday (6) in UTC but the code
buckets it at Monday (0). -/
theorem claim5_code_eval :
    (pyFromIso "2024-01-01T09:00:00+05:00").map dtKey
      = (pyFromIso "2024-01-01T04:00:00Z").map dtKey ∧
    (pyFromIso "2024-01-01T09:00:00+05:00").map utcHour = some 4 ∧
    (analyze_scraped_data offsetScrape).map
      (fun a => a.hourlyActivity.lookup "9") = some (some 1) ∧
    (analyze_scraped_data offsetScrape).map
      (fun a => a.hourlyActivity.lookup "4") = some (some 0) ∧
    (analyze_scraped_data utcScrape).map
      (fun a => a.hourlyActivity.lookup "4") = some (some 1) ∧
    (analyze_scraped_data offsetScrape).map (·.timezoneNote)
      = some "Times shown in UTC (scraped)" ∧
    (pyFromIso "2024-01-01T02:00:00+05:00").map utcWeekday = some 6 ∧
    (pyFromIso "2024-01-01T02:00:00+05:00").map
      (fun dt => pyWeekday dt.year dt.month dt.day) = some 0 := by
  refine ⟨by decide, by decide, by decide, by decide, by decide, by decide,
    by decide, by decide⟩

/-! ### Claim C6 -/

/-- Claim C6 as stated is false: on the mixed input (one entry of which
fails to parse) the code reports no `last_tweet_time` at all — the single
`try` block around the second parsing loop aborts on the first failure —
even though parsed instants exist whose maximum the claim promises. -/
theorem claim6_counterexample :
    (analyze_scraped_data mixedScrape).map (·.lastTweetTime) = some none ∧
    mixedScrape.tweets.filterMap pyFromIso ≠ [] := by
  refine ⟨by decide, by decide⟩

theorem lastTweet_uniform (ts : List String) (hne : ts ≠ [])
    (hall : ∀ s ∈ ts, (pyFromIso s).isSome)
    (huni : ∀ y ∈ ts.filterMap pyFromIso, ∀ z ∈ ts.filterMap pyFromIso,
      y.offset.isSome = z.offset.isSome) :
    lastTweet ts ≠ none ∧
    ∀ m, lastTweet ts = some m →
      m ∈ ts.filterMap pyFromIso ∧
      ∀ y ∈ ts.filterMap pyFromIso, dtKey y ≤ dtKey m := by
  cases ts with
  | nil => exact absurd rfl hne
  | cons s ss =>
    obtain ⟨dt, hdt⟩ :=
      Option.isSome_iff_exists.mp (hall s (List.mem_cons_self ..))
    have hp := parseAll_of_forall (s :: ss) hall
    have hfm : (s :: ss).filterMap pyFromIso = dt :: ss.filterMap pyFromIso := by
      simp [List.filterMap_cons, hdt]
    have hcond : (dt :: ss.filterMap pyFromIso).all
        (fun y => y.offset.isSome = dt.offset.isSome) = true := by
      rw [List.all_eq_true]
      intro y hy
      simp only [decide_eq_true_eq]
      exact huni y (hfm ▸ hy) dt (hfm ▸ List.mem_cons_self ..)
    have hlast : lastTweet (s :: ss)
        = some ((ss.filterMap pyFromIso).foldl pickMax dt) := by
      unfold lastTweet
      rw [hp, hfm]
      simp [hcond]
    refine ⟨by rw [hlast]; simp, ?_⟩
    intro m hm
    rw [hlast] at hm
    obtain rfl := Option.some.inj hm
    rw [hfm]
    exact ⟨foldl_pickMax_mem _ dt, foldl_pickMax_ge _ dt⟩

theorem lastTweet_mixed (ts : List String)
    (hall : ∀ s ∈ ts, (pyFromIso s).isSome) (y z : PyDateTime)
    (hy : y ∈ ts.filterMap pyFromIso) (hz : z ∈ ts.filterMap pyFromIso)
    (hya : y.offset.isSome = true) (hza : z.offset.isSome = false) :
    lastTweet ts = none := by
  have hp := parseAll_of_forall ts hall
  cases hdts : ts.filterMap pyFromIso with
  | nil =>
    rw [hdts] at hy
    simp at hy
  | cons x xs =>
    rw [hdts] at hp hy hz
    have hcond : (x :: xs).all
        (fun w => w.offset.isSome = x.offset.isSome) = false := by
      rw [Bool.eq_false_iff]
      intro htrue
      rw [List.all_eq_true] at htrue
      have h1 := htrue y hy
      have h2 := htrue z hz
      simp only [decide_eq_true_eq] at h1 h2
      rw [hya] at h1
      rw [hza] at h2
      rw [← h1] at h2
      exact absurd h2 (by simp)
    unfold lastTweet
    rw [hp]
    simp [hcond]

/-- Claim C6, amended: `last_tweet_time` equals the maximum of the parsed
instants (the first maximal element under the comparison order) when
every entry of the input parses and the parsed datetimes are uniformly
timezone-aware or uniformly naive; when any entry fails to parse — the
single `try` around the whole second loop aborts — or when the parsed
datetimes mix naive and aware values — Python's `max` raises `TypeError`
into the silent `except` — the code reports no `last_tweet_time` at
all. -/
theorem claim6_amended (d : ScrapedData) (hs : d.success = true)
    (hne : d.tweets ≠ []) (hall : ∀ s ∈ d.tweets, (pyFromIso s).isSome) :
    (analyze_scraped_data d).map (·.lastTweetTime)
      = some (lastTweet d.tweets) ∧
    ((∀ y ∈ d.tweets.filterMap pyFromIso,
        ∀ z ∈ d.tweets.filterMap pyFromIso,
        y.offset.isSome = z.offset.isSome) →
      lastTweet d.tweets ≠ none ∧
      ∀ m, lastTweet d.tweets = some m →
        m ∈ d.tweets.filterMap pyFromIso ∧
        ∀ y ∈ d.tweets.filterMap pyFromIso, dtKey y ≤ dtKey m) ∧
    (∀ y ∈ d.tweets.filterMap pyFromIso,
      ∀ z ∈ d.tweets.filterMap pyFromIso,
      y.offset.isSome = true → z.offset.isSome = false →
      lastTweet d.tweets = none) := by
  refine ⟨?_, ?_, ?_⟩
  · rw [analyze_some d hs hne]
    simp only [Option.map_some']
  · intro huni
    exact lastTweet_uniform d.tweets hne hall huni
  · intro y hy z hz hya hza
    exact lastTweet_mixed d.tweets hall y z hy hz hya hza

/-- Witness for C6 at `lastScrape` (uniformly aware entries: the later
instant is reported) and at `mixedTzScrape` (an aware and a naive entry:
nothing is reported). -/
theorem claim6_witness :
    (analyze_scraped_data lastScrape).map (·.lastTweetTime)
      = some (lastTweet lastScrape.tweets) ∧
    lastTweet lastScrape.tweets ≠ none ∧
    lastTweet lastScrape.tweets
      = some ⟨2024, 1, 2, 11, 30, 0, 0, some 0⟩ ∧
    lastTweet mixedTzScrape.tweets = none := by
  have h := claim6_amended lastScrape rfl (by decide) (by decide)
  have hm := claim6_amended mixedTzScrape rfl (by decide) (by decide)
  refine ⟨h.1, (h.2.1 (by decide)).1, by decide, ?_⟩
  exact hm.2.2 ⟨2024, 1, 1, 9, 0, 0, 0, some 0⟩ (by decide)
    ⟨2024, 1, 2, 0, 0, 0, 0, none⟩ (by decide) (by decide) (by decide)

/-! ### Claim C7 -/

/-- Claim C7 as stated is false in its last clause: a successful fetch
whose entries are all unparseable ("no analyzable data after parsing")
does not produce the 404 "no data found" error — `analyze_scraped_data`
still returns a summary, so the fetch succeeds. -/
theorem claim7_counterexample :
    (fetch_via_scraper "u" garbageScrape).isOk = true ∧
    parsedCount garbageScrape = 0 := by
  refine ⟨by decide, by decide⟩

/-- Claim C7, amended: a source-level failure is passed through with its
message unchanged as exactly one of three categories — 404 when the
message mentions "not found" or "suspended", else 504 when it mentions
"timed out", else 500; a successful fetch whose raw tweet list is empty
yields the distinct 404 "No tweets found" error; a successful fetch with
a non-empty tweet list always yields a response, even when no entry
parses. -/
theorem claim7_amended (u : String) (s : ScrapedData) :
    (∀ msg, s.success = false → s.error = some msg →
      fetch_via_scraper u s = .httpError (statusFor msg) msg ∧
      (statusFor msg = 404 ∨ statusFor msg = 504 ∨ statusFor msg = 500) ∧
      ((strContains (lowerStr msg) "not found" = true ∨
        strContains (lowerStr msg) "suspended" = true) →
        statusFor msg = 404) ∧
      (strContains (lowerStr msg) "not found" = false →
        strContains (lowerStr msg) "suspended" = false →
        strContains (lowerStr msg) "timed out" = true →
        statusFor msg = 504) ∧
      (strContains (lowerStr msg) "not found" = false →
        strContains (lowerStr msg) "suspended" = false →
        strContains (lowerStr msg) "timed out" = false →
        statusFor msg = 500)) ∧
    (s.success = true → s.tweets = [] →
      fetch_via_scraper u s = .httpError 404 ("No tweets found for @" ++ u)) ∧
    (s.success = true → s.tweets ≠ [] →
      (fetch_via_scraper u s).isOk = true) := by
  refine ⟨?_, ?_, ?_⟩
  · intro msg hf he
    have hfetch : fetch_via_scraper u s = .httpError (statusFor msg) msg := by
      unfold fetch_via_scraper
      rw [if_pos hf, he]
      rfl
    refine ⟨hfetch, ?_, ?_, ?_, ?_⟩
    · unfold statusFor
      split
      · exact .inl rfl
      · split
        · exact .inr (.inl rfl)
        · exact .inr (.inr rfl)
    · intro hor
      unfold statusFor
      rw [if_pos hor]
    · intro hn hsus ht
      simp [statusFor, hn, hsus, ht]
    · intro hn hsus ht
      simp [statusFor, hn, hsus, ht]
  · intro hs' hte
    have hns : ¬s.success = false := by rw [hs']; simp
    have han : analyze_scraped_data s = none := by
      unfold analyze_scraped_data
      rw [if_pos (Or.inr hte)]
    unfold fetch_via_scraper
    rw [if_neg hns, han]
  · intro hs' hne
    have hns : ¬s.success = false := by rw [hs']; simp
    unfold fetch_via_scraper
    rw [if_neg hns, analyze_some s hs' hne]
    rfl

/-- Witness for C7: the three failure categories and the empty-list 404. -/
theorem claim7_witness :
    fetch_via_scraper "u" notFoundScrape
      = .httpError 404 "User @u not found or suspended" ∧
    fetch_via_scraper "u" timeoutScrape
      = .httpError 504
          "Request timed out. Twitter may be slow or blocking requests." ∧
    fetch_via_scraper "u" errScrape
      = .httpError 500 "Scraping error: boom" ∧
    fetch_via_scraper "u" emptyScrape
      = .httpError 404 "No tweets found for @u" := by
  have h1 := ((claim7_amended "u" notFoundScrape).1 _ rfl rfl).1
  have h2 := ((claim7_amended "u" timeoutScrape).1 _ rfl rfl).1
  have h3 := ((claim7_amended "u" errScrape).1 _ rfl rfl).1
  have h4 := (claim7_amended "u" emptyScrape).2.1 rfl rfl
  exact ⟨h1.trans (by decide), h2.trans (by decide), h3.trans (by decide),
    h4.trans (by decide)⟩

/-! ### Claim C8 -/

/-- Claim C8, confirmed: on every successful analysis the hourly map holds
all 24 keys "0".."23" (each key paired with the count of parsed entries at
that hour, hence 0 for a bucket with no data) and the daily map all 7 keys
"0".."6"; the demo generator's maps likewise hold all 24 / 7 keys. -/
theorem claim8_confirmed (d : ScrapedData) (u : String)
    (draws : List (Nat × Nat)) (hs : d.success = true) (hne : d.tweets ≠ []) :
    ((analyze_scraped_data d).map (·.hourlyActivity) = some
      ((mkDict (hourOrder d.tweets) (fun h => (hoursOf d.tweets).count h)).map
        fun p => (strKey p.1, p.2)) ∧
     (∀ h, h < 24 → (strKey h, (hoursOf d.tweets).count h) ∈
       (mkDict (hourOrder d.tweets) (fun h => (hoursOf d.tweets).count h)).map
         fun p => (strKey p.1, p.2)) ∧
     (∀ h, h < 24 → h ∉ hoursOf d.tweets → (strKey h, 0) ∈
       (mkDict (hourOrder d.tweets) (fun h => (hoursOf d.tweets).count h)).map
         fun p => (strKey p.1, p.2))) ∧
    ((analyze_scraped_data d).map (·.dailyActivity) = some
      ((mkDict (dayOrder d.tweets) (fun h => (daysOf d.tweets).count h)).map
        fun p => (strKey p.1, p.2)) ∧
     (∀ dy, dy < 7 → (strKey dy, (daysOf d.tweets).count dy) ∈
       (mkDict (dayOrder d.tweets) (fun h => (daysOf d.tweets).count h)).map
         fun p => (strKey p.1, p.2)) ∧
     (∀ dy, dy < 7 → dy ∉ daysOf d.tweets → (strKey dy, 0) ∈
       (mkDict (dayOrder d.tweets) (fun h => (daysOf d.tweets).count h)).map
         fun p => (strKey p.1, p.2))) ∧
    ((generate_demo_data u draws).hourlyActivity =
      (mkDict ((List.range 24).foldl addKey (keyOrder (draws.map Prod.fst)))
        (fun j => (draws.map Prod.fst).count j)).map
          (fun p => (strKey p.1, p.2)) ∧
     (∀ h, h < 24 → (strKey h, (draws.map Prod.fst).count h) ∈
       (generate_demo_data u draws).hourlyActivity) ∧
     (∀ dy, dy < 7 → (strKey dy, (draws.map Prod.snd).count dy) ∈
       (generate_demo_data u draws).dailyActivity)) := by
  have hdemoH : (generate_demo_data u draws).hourlyActivity =
      (mkDict ((List.range 24).foldl addKey (keyOrder (draws.map Prod.fst)))
        (fun j => (draws.map Prod.fst).count j)).map
          (fun p => (strKey p.1, p.2)) := by
    simp only [generate_demo_data]
    rw [demo_hourly_eq]
  have hdemoD : (generate_demo_data u draws).dailyActivity =
      (mkDict ((List.range 7).foldl addKey (keyOrder (draws.map Prod.snd)))
        (fun j => (draws.map Prod.snd).count j)).map
          (fun p => (strKey p.1, p.2)) := by
    simp only [generate_demo_data]
    rw [demo_daily_eq]
  refine ⟨⟨?_, ?_, ?_⟩, ⟨?_, ?_, ?_⟩, hdemoH, ?_, ?_⟩
  · rw [analyze_some d hs hne]
    simp only [Option.map_some']
    rw [hourlyFull_eq]
  · intro h hlt
    exact mem_mkDict_map _ _ h (mem_hourOrder d.tweets h hlt)
  · intro h hlt hno
    have hz : (hoursOf d.tweets).count h = 0 := List.count_eq_zero.mpr hno
    have := mem_mkDict_map (hourOrder d.tweets)
      (fun h => (hoursOf d.tweets).count h) h (mem_hourOrder d.tweets h hlt)
    simpa only [hz] using this
  · rw [analyze_some d hs hne]
    simp only [Option.map_some']
    rw [dailyFull_eq]
  · intro dy hlt
    exact mem_mkDict_map _ _ dy (mem_dayOrder d.tweets dy hlt)
  · intro dy hlt hno
    have hz : (daysOf d.tweets).count dy = 0 := List.count_eq_zero.mpr hno
    have := mem_mkDict_map (dayOrder d.tweets)
      (fun h => (daysOf d.tweets).count h) dy (mem_dayOrder d.tweets dy hlt)
    simpa only [hz] using this
  · intro h hlt
    rw [hdemoH]
    exact mem_mkDict_map _ _ h ((mem_foldl_addKey _ _ _).mpr
      (.inr (List.mem_range.mpr hlt)))
  · intro dy hlt
    rw [hdemoD]
    exact mem_mkDict_map _ _ dy ((mem_foldl_addKey _ _ _).mpr
      (.inr (List.mem_range.mpr hlt)))

/-- Witness for C8 at `garbageScrape` (nothing parses, so every bucket is
zero-filled) and a singleton draw list. -/
theorem claim8_witness :
    garbageScrape.success = true ∧ garbageScrape.tweets ≠ [] ∧
    (strKey 5, 0) ∈
      (mkDict (hourOrder garbageScrape.tweets)
        (fun h => (hoursOf garbageScrape.tweets).count h)).map
          (fun p => (strKey p.1, p.2)) ∧
    (strKey 23, 0) ∈ (generate_demo_data "x" [(9, 2)]).hourlyActivity := by
  have h := claim8_confirmed garbageScrape "x" [(9, 2)] rfl (by decide)
  refine ⟨rfl, by decide, ?_, ?_⟩
  · have h5 := h.1.2.2 5 (by decide) (by decide)
    exact h5
  · have h23 := h.2.2.2.1 23 (by decide)
    have hz : ([((9 : Nat), (2 : Nat))].map Prod.fst).count 23 = 0 := by decide
    rwa [hz] at h23

/-! ### Claim C9 -/

/-- Claim C9, confirmed (randomness modelled by the draw list):
`random.randint(150, 300)` fixes a total `N = draws.length` in [150, 300],
the generator feeds exactly those `N` (hour, day) pairs through the same
`tallyOne`/`fillKeys`/`sortByCountDesc` logic as the aggregator — so the
reported total, the bucket sums and the heatmap sum all equal `N` — and
the result is marked as demo data with the UTC-demo timezone annotation;
the function reads no external source (it is a pure function of the
identifier and the draws). -/
theorem claim9_confirmed (u : String) (draws : List (Nat × Nat))
    (hlo : 150 ≤ draws.length) (hhi : draws.length ≤ 300)
    (hdr : ∀ p ∈ draws, p.1 < 24 ∧ p.2 < 7) :
    (generate_demo_data u draws).totalTweetsAnalyzed = draws.length ∧
    150 ≤ (generate_demo_data u draws).totalTweetsAnalyzed ∧
    (generate_demo_data u draws).totalTweetsAnalyzed ≤ 300 ∧
    sumVals (generate_demo_data u draws).hourlyActivity = draws.length ∧
    sumVals (generate_demo_data u draws).dailyActivity = draws.length ∧
    matSum (generate_demo_data u draws).heatmapData = draws.length ∧
    (generate_demo_data u draws).heatmapData
      = (draws.foldl tallyOne initCtrs).heatmap ∧
    (generate_demo_data u draws).hourlyActivity
      = (fillKeys (draws.foldl tallyOne initCtrs).hourly 24).map
          (fun p => (strKey p.1, p.2)) ∧
    (generate_demo_data u draws).isDemo = true ∧
    (generate_demo_data u draws).timezoneNote
      = "Times shown in UTC (demo mode)" := by
  obtain ⟨hd1, hd2, hd3⟩ := demo_tally_sums draws hdr
  have htot : (generate_demo_data u draws).totalTweetsAnalyzed
      = draws.length := by
    simp only [generate_demo_data]
  refine ⟨htot, by omega, by omega, ?_, ?_, ?_, ?_, ?_, ?_, ?_⟩
  · simp only [generate_demo_data]
    rw [sumVals_map_str, sumVals_fillKeys]
    exact hd1
  · simp only [generate_demo_data]
    rw [sumVals_map_str, sumVals_fillKeys]
    exact hd2
  · simp only [generate_demo_data]
    exact hd3
  · simp only [generate_demo_data]
  · simp only [generate_demo_data]
  · simp only [generate_demo_data]
  · simp only [generate_demo_data]

/-- Witness for C9 at 150 draws of (hour 9, Wednesday). -/
theorem claim9_witness :
    150 ≤ demoDraws.length ∧ demoDraws.length ≤ 300 ∧
    (generate_demo_data "x" demoDraws).totalTweetsAnalyzed
      = demoDraws.length ∧
    (generate_demo_data "x" demoDraws).isDemo = true ∧
    (generate_demo_data "x" demoDraws).timezoneNote
      = "Times shown in UTC (demo mode)" := by
  have h := claim9_confirmed "x" demoDraws (by decide) (by decide) (by decide)
  exact ⟨by decide, by decide, h.1, h.2.2.2.2.2.2.2.2.1, h.2.2.2.2.2.2.2.2.2⟩

/-! ### Claim C10 -/

/-- Claim C10, confirmed: `analyze_user` strips surrounding whitespace and
then leading "@" characters from the username before anything else; when
the result is empty it raises the 400 "Username is required" error without
invoking the demo generator or the scraper, and otherwise dispatches to
exactly one of the two with the normalised username. -/
theorem claim10_confirmed (u : String) (demo : Bool) :
    (cleanUsername u = "" →
      analyze_user u demo = .badRequest "Username is required") ∧
    (cleanUsername u ≠ "" → demo = true →
      analyze_user u demo = .demoCall (cleanUsername u)) ∧
    (cleanUsername u ≠ "" → demo = false →
      analyze_user u demo = .scrapeCall (cleanUsername u)) := by
  refine ⟨?_, ?_, ?_⟩
  · intro h
    simp [analyze_user, h]
  · intro h hd
    simp [analyze_user, h, hd]
  · intro h hd
    simp [analyze_user, h, hd]

/-- Witness for C10: an all-"@"/whitespace username is rejected; otherwise
the normalised name reaches the selected path. -/
theorem claim10_witness :
    analyze_user " @@ " false = .badRequest "Username is required" ∧
    analyze_user " @bob " true = .demoCall "bob" ∧
    analyze_user "@alice" false = .scrapeCall "alice" := by
  have h1 := (claim10_confirmed " @@ " false).1 (by decide)
  have h2 := (claim10_confirmed " @bob " true).2.1 (by decide) rfl
  have h3 := (claim10_confirmed "@alice" false).2.2 (by decide) rfl
  exact ⟨h1, h2.trans (by decide), h3.trans (by decide)⟩

end TweetActivity
